import Mathlib

/-!
Verification of the comment-generation handler of `ai-report-generator`.

The development shallowly embeds the logic of `src/functions/api/comment.js`
(the primary variant; `src/unnamed/part_000` re-implements the same helpers
with backoff base 1000 instead of 800, which is covered by parameterizing the
base): the input sanitizers (`safeStr`, `safeArr`, `stripDigits`), the
provider-response helpers (`safeJson`, text extraction), the rate-limit retry
loop (`fetchWithRetry`) and the candidate-model fallback loop of
`handleComment`, together with the surrounding request handling (content-type
check, body parse, credential check).

Strings are modelled as `List Char`.  JavaScript values (request bodies and
parsed provider JSON) are modelled by the mutually inductive type `J`.
Upstream HTTP traffic is modelled by a transport `tr : Nat -> Resp`, the
sequence of responses produced by successive `fetch` calls; a `Resp` carries
its HTTP status, its body text, and `parsed`, the result of `JSON.parse` on
that text (`none` when the text is not valid JSON).  Exceptions that the
JavaScript code can raise and catches at the handler boundary are modelled
with `Option` where they can occur (body parse, text extraction).
-/

/-- Characters of a JavaScript string. -/
abbrev Str := List Char

/-- Whitespace recognised by `String.prototype.trim`.  (JS also trims a few
exotic Unicode space characters; none of the properties below depend on the
exact whitespace class.) -/
def isWsChar (c : Char) : Bool :=
  c == ' ' || c == '\t' || c == '\n' || c == '\r' || c == '\x0b' || c == '\x0c'

/-- Model of `String.prototype.trim`: drop leading and trailing whitespace. -/
def trimChars (s : Str) : Str :=
  (((s.dropWhile isWsChar).reverse).dropWhile isWsChar).reverse

/-- Boolean prefix test on character lists. -/
def startsWithStr : Str → Str → Bool
  | [], _ => true
  | _ :: _, [] => false
  | a :: as, b :: bs => a == b && startsWithStr as bs

/-- Boolean substring test (model of `String.prototype.includes`). -/
def hasSubstr (needle : Str) : Str → Bool
  | [] => startsWithStr needle []
  | c :: cs => startsWithStr needle (c :: cs) || hasSubstr needle cs

mutual
/-- JavaScript values, as far as the handler observes them: `undefined`,
`null`, booleans, (integer) numbers, strings, arrays and plain objects. -/
inductive J where
  | undefined : J
  | null : J
  | bool (b : Bool) : J
  | num (n : Int) : J
  | str (s : Str) : J
  | arr (elts : JArr) : J
  | obj (fields : JObj) : J

/-- Spine of a JavaScript array (mutually inductive with `J` so that all
functions below are structurally recursive and kernel-reducible). -/
inductive JArr where
  | nil : JArr
  | cons (hd : J) (tl : JArr) : JArr

/-- Spine of a JavaScript object: an ordered list of key/value fields. -/
inductive JObj where
  | nil : JObj
  | cons (key : Str) (val : J) (tl : JObj) : JObj
end

/-- The elements of a `JArr` as a Lean list. -/
def JArr.toList : JArr → List J
  | .nil => []
  | .cons h t => h :: JArr.toList t

/-- Build a `JArr` from a Lean list. -/
def JArr.ofList : List J → JArr
  | [] => .nil
  | h :: t => .cons h (JArr.ofList t)

/-- First value bound to key `k` (property lookup on a parsed object). -/
def JObj.find : JObj → Str → Option J
  | .nil, _ => none
  | .cons key v tl, k => if key = k then some v else JObj.find tl k

mutual
/-- Model of the JavaScript `String(·)` coercion. -/
def jsString : J → Str
  | .undefined => ("undefined").toList
  | .null => ("null").toList
  | .bool b => if b then ("true").toList else ("false").toList
  | .num n => (toString n).toList
  | .str s => s
  | .arr l => jsStringArr l
  | .obj _ => ("[object Object]").toList

/-- Coercion `String(·)` on arrays: elements joined with commas, `null`/`undefined`
elements contributing the empty string. -/
def jsStringArr : JArr → Str
  | .nil => []
  | .cons h .nil =>
      (match h with
       | .undefined => []
       | .null => []
       | v => jsString v)
  | .cons h (JArr.cons h2 t) =>
      (match h with
       | .undefined => []
       | .null => []
       | v => jsString v) ++ [','] ++ jsStringArr (JArr.cons h2 t)
end

/-- JavaScript truthiness.  (`NaN` is not representable here; numbers are
integers.) -/
def truthy : J → Bool
  | .undefined => false
  | .null => false
  | .bool b => b
  | .num n => n != 0
  | .str s => !s.isEmpty
  | .arr _ => true
  | .obj _ => true

/-- Model of `a || b`. -/
def jsOr (a b : J) : J := if truthy a then a else b

/-- Model of `a ?? b`. -/
def jsCoalesce (a b : J) : J :=
  match a with
  | .undefined => b
  | .null => b
  | v => v

/-- Function `safeStr` (comment.js line 177): `String(v ?? "").trim()`. -/
def safeStr (v : J) : Str := trimChars (jsString (jsCoalesce v (.str [])))

/-- Function `safeArr` (comment.js lines 180-183): non-arrays yield `[]`; arrays are
mapped through `String(x ?? "").trim()`, empty strings dropped
(`filter(Boolean)`), and the result capped at 10 entries (`slice(0, 10)`). -/
def safeArr (v : J) : List Str :=
  match v with
  | .arr l =>
      (((l.toList.map (fun x => trimChars (jsString (jsCoalesce x (.str []))))).filter
        (fun s => !s.isEmpty)).take 10)
  | _ => []

/-- Digit test of the regex `[0-9]`. -/
def isDigitCh (c : Char) : Bool := c.isDigit

/-- Function `stripDigits` (comment.js lines 185-187): `String(s || "").replace(/[0-9]/g, "")`.
The handler always passes a string, so the coercion is kept at type `Str`. -/
def stripDigits (s : Str) : Str :=
  (jsString (jsOr (.str s) (.str []))).filter (fun c => !isDigitCh c)

/-- Sanitization of the name field (comment.js line 36):
`safeStr(body.studentFirstName || "Student")`. -/
def sanitizeName (v : J) : Str := safeStr (jsOr v (.str ("Student").toList))

/-- Property access `v.k` yielding `undefined` for missing fields and
non-objects.  (In JS, access on `null`/`undefined` raises a TypeError that the
handler's try/catch turns into a 500; request bodies produced by `JSON.parse`
that reach the accesses below are never `undefined`, and the claims do not
exercise a `null` body, so the access is modelled as `undefined` there.) -/
def jGet (v : J) (k : Str) : J :=
  match v with
  | .obj f =>
      match JObj.find f k with
      | some w => w
      | none => .undefined
  | _ => .undefined

/-- An upstream HTTP response: status, body text, and `parsed`, the result of
`JSON.parse` on the body text (`none` when the text is not valid JSON). -/
structure Resp where
  status : Nat
  text : Str
  parsed : Option J

/-- Predicate `Response.ok`: status in the range 200-299. -/
def respOk (r : Resp) : Bool := 200 ≤ r.status && r.status ≤ 299

/-- Function `safeJson` (comment.js lines 189-192): parse the body text, wrapping a
parse failure as `(raw : <text>)`. -/
def safeJson (r : Resp) : J :=
  match r.parsed with
  | some j => j
  | none => .obj (JObj.cons ("raw").toList (.str r.text) .nil)

/-- Optional-chain property step `v?.k`: short-circuits on `null`/`undefined`,
is `undefined` on non-objects. -/
def getOpt (v : J) (k : Str) : Option J :=
  match v with
  | .obj f => JObj.find f k
  | _ => none

/-- Optional-chain index step `v?.[0]`. -/
def jIndex0 (v : J) : Option J :=
  match v with
  | .arr (JArr.cons h _) => some h
  | .arr .nil => none
  | .str (c :: _) => some (.str [c])
  | .str [] => none
  | .obj f => JObj.find f (("0").toList)
  | _ => none

/-- The chain `data?.candidates?.[0]?.content?.parts` of comment.js line 101,
`none` meaning the chain short-circuited to `undefined`. -/
def partsOf (data : J) : Option J :=
  (getOpt data (("candidates").toList)).bind (fun c =>
    (jIndex0 c).bind (fun c0 =>
      (getOpt c0 (("content").toList)).bind (fun ct =>
        getOpt ct (("parts").toList))))

/-- Access `p.text` for one element of `parts` in the `.map(p => p.text)` of
comment.js line 101.  Outer `none` models the TypeError raised when `p` is
`null`/`undefined`; the inner option is the field value (`none` = `undefined`). -/
def partText (p : J) : Option (Option J) :=
  match p with
  | .null => none
  | .undefined => none
  | .obj f => some (JObj.find f (("text").toList))
  | _ => some none

/-- Mapping `parts.map(p => p.text)` over the array spine; `none` propagates the
TypeError of `partText`. -/
def partTexts : JArr → Option (List (Option J))
  | .nil => some []
  | .cons h t =>
      match partText h with
      | none => none
      | some v =>
          match partTexts t with
          | none => none
          | some vs => some (v :: vs)

/-- Steps `.filter(Boolean).join("")`: keep truthy values and concatenate their
string coercions. -/
def joinTruthy : List (Option J) → Str
  | [] => []
  | none :: rest => joinTruthy rest
  | some v :: rest => if truthy v then jsString v ++ joinTruthy rest else joinTruthy rest

/-- The text extraction of comment.js line 101:
`data?.candidates?.[0]?.content?.parts?.map(p => p.text).filter(Boolean).join("") || ""`.
`none` models a raised TypeError: `parts` present but not an array (`.map` is
not a function), or an element of `parts` being `null`/`undefined`.  A chain
that short-circuits to `undefined` yields `""` via the final `|| ""`. -/
def extractText (data : J) : Option Str :=
  match partsOf data with
  | none => some []
  | some .null => some []
  | some .undefined => some []
  | some (.arr elts) => (partTexts elts).map joinTruthy
  | some _ => none

/-- JSON string escaping as performed by `JSON.stringify`.  (Control
characters other than the common escapes would be `\uXXXX`-encoded; the
response bodies built by the handler contain none.) -/
def escapeChar (c : Char) : Str :=
  if c == '"' then ['\\', '"']
  else if c == '\\' then ['\\', '\\']
  else if c == '\n' then ['\\', 'n']
  else if c == '\t' then ['\\', 't']
  else if c == '\r' then ['\\', 'r']
  else [c]

/-- Escape a whole string. -/
def escapeStr (s : Str) : Str := s.foldr (fun c acc => escapeChar c ++ acc) []

/-- Join rendered fragments with commas. -/
def joinComma : List Str → Str
  | [] => []
  | [s] => s
  | s :: t :: r => s ++ [','] ++ joinComma (t :: r)

mutual
/-- Model of `JSON.stringify` on the values the handler serializes.  A bare
`undefined` never occurs in a response body; `undefined`-valued object fields
are omitted and `undefined` array elements render as `null`, as in JS. -/
def stringify : J → Str
  | .undefined => []
  | .null => ("null").toList
  | .bool b => if b then ("true").toList else ("false").toList
  | .num n => (toString n).toList
  | .str s => '"' :: (escapeStr s ++ ['"'])
  | .arr l => '[' :: (joinComma (stringifyArr l) ++ [']'])
  | .obj f => '\x7b' :: (joinComma (stringifyObj f) ++ ['\x7d'])

/-- Rendered array elements (`undefined` renders as `null`). -/
def stringifyArr : JArr → List Str
  | .nil => []
  | .cons h t =>
      (match h with
       | .undefined => ("null").toList
       | v => stringify v) :: stringifyArr t

/-- Rendered object fields, `undefined`-valued fields omitted. -/
def stringifyObj : JObj → List Str
  | .nil => []
  | .cons k v t =>
      match v with
      | .undefined => stringifyObj t
      | w => (('"' :: (escapeStr k ++ ['"'])) ++ [':'] ++ stringify w) :: stringifyObj t
end

/-- Builtin `encodeURIComponent`: a JS builtin (not repository code), modelled as the
identity, with which it agrees on the alphanumeric/hyphen/dot model
identifiers the handler uses.  The encoded strings only flow into request
URLs, never into response bodies, so no claim depends on the encoding. -/
def encodeURIComponent (s : Str) : Str := s

/-- The generation endpoint URL of comment.js lines 84-85. -/
def endpointFor (apiKey model : Str) : Str :=
  ("https://generativelanguage.googleapis.com/v1beta/models/").toList
    ++ encodeURIComponent model
    ++ (":generateContent?key=").toList
    ++ encodeURIComponent apiKey

/-- Result of one `fetchWithRetry` call: the returned response, the number of
`fetch` calls performed, and the durations (ms) of the backoff sleeps
performed, in order. -/
structure FetchResult where
  resp : Resp
  fetches : Nat
  sleeps : List Nat

/-- Placeholder for the JS `let last;` before its first assignment.  It is
never returned: the loop of `fetchWithRetry` runs at least once (`fuel =
retries + 1 ≥ 1`), and `last` is only read after the loop, by which time it
holds the most recent 429 response. -/
def respUninit : Resp := ⟨0, [], none⟩

/-- The loop of `fetchWithRetry` (comment.js lines 199-206): `fuel` is the
number of remaining iterations (initially `retries + 1`), `pos` the index of
the next transport response, `i` the JS loop counter (for the backoff
exponent), `last` the JS variable `last`.  Each iteration fetches; a non-429
status returns immediately; on 429 the response is recorded and a sleep of
`base * 2 ^ i` ms is performed before the next iteration. -/
def fetchRetryGo (tr : Nat → Resp) (base : Nat) : Nat → Nat → Nat → Resp → FetchResult
  | 0, _, _, last => ⟨last, 0, []⟩
  | fuel + 1, pos, i, _ =>
      let resp := tr pos
      if resp.status = 429 then
        let rest := fetchRetryGo tr base fuel (pos + 1) (i + 1) resp
        ⟨rest.resp, rest.fetches + 1, base * 2 ^ i :: rest.sleeps⟩
      else ⟨resp, 1, []⟩

/-- Function `fetchWithRetry` (comment.js lines 199-206, backoff base 800; the
`part_000` variant is identical with base 1000).  `retries` defaults to 3 at
the call sites, giving at most `retries + 1 = 4` attempts. -/
def fetchWithRetry (tr : Nat → Resp) (base retries pos : Nat) : FetchResult :=
  fetchRetryGo tr base (retries + 1) pos 0 respUninit

/-- The JS object `lastErr = (status, data, model)` of comment.js line 115. -/
structure LastErr where
  status : Nat
  data : J
  model : Str

/-- Outcome of the handler: HTTP status and JSON body of the response it
returns, plus the observable outbound traffic: `attempts` lists the candidate
models for which a generation call was issued, `calls` the URL of every
individual `fetch` performed. -/
structure HOut where
  status : Nat
  body : J
  attempts : List Str
  calls : List Str

/-- Body `(error: "Server error", detail: <text>)` produced by the outer
catch of comment.js lines 123-124. -/
def serverErrorBody (detail : Str) : J :=
  .obj (JObj.cons ("error").toList (.str ("Server error").toList)
    (JObj.cons ("detail").toList (.str detail) .nil))

/-- Serialization of `lastErr` inside the all-candidates-failed body. -/
def lastErrJ : Option LastErr → J
  | none => .null
  | some e =>
      .obj (JObj.cons ("status").toList (.num (e.status : Int))
        (JObj.cons ("data").toList e.data
          (JObj.cons ("model").toList (.str e.model) .nil)))

/-- The all-candidates-failed body of comment.js lines 117-121. -/
def gemErrorBody (le : Option LastErr) : J :=
  .obj (JObj.cons ("error").toList (.str ("Gemini error").toList)
    (JObj.cons ("message").toList
      (.str ("All candidate models failed. Use /api/models to see available model IDs for your key.").toList)
      (JObj.cons ("lastError").toList (lastErrJ le) .nil)))

/-- The success body `(comment: ..., _modelUsed: ...)` of comment.js
lines 106-110. -/
def commentBody (comment model : Str) : J :=
  .obj (JObj.cons ("comment").toList (.str comment)
    (JObj.cons ("_modelUsed").toList (.str model) .nil))

/-- The candidate loop of `handleComment` (comment.js lines 82-122).  For each
candidate model, call `fetchWithRetry` (base 800, retries 3), parse the body
with `safeJson`; a 2xx response returns the success body built from the
extracted text (a TypeError during extraction reaches the outer catch as a
500); otherwise `lastErr` is updated and the next candidate is tried.  With no
candidates left, the most recent error is surfaced with status
`lastErr?.status || 500`. -/
def tryModels (tr : Nat → Resp) (apiKey : Str) :
    List Str → Nat → Option LastErr → HOut
  | [], _, le =>
      let st := match le with
        | some e => if e.status = 0 then 500 else e.status
        | none => 500
      ⟨st, gemErrorBody le, [], []⟩
  | model :: rest, pos, le =>
      let fr := fetchWithRetry tr 800 3 pos
      let data := safeJson fr.resp
      let urls := List.replicate fr.fetches (endpointFor apiKey model)
      if respOk fr.resp then
        match extractText data with
        | none => ⟨500, serverErrorBody (("TypeError").toList), [model], urls⟩
        | some text =>
            ⟨200, commentBody (trimChars (stripDigits text)) model, [model], urls⟩
      else
        let out := tryModels tr apiKey rest (pos + fr.fetches)
          (some ⟨fr.resp.status, data, model⟩)
        ⟨out.status, out.body, model :: out.attempts, urls ++ out.calls⟩

/-- Deployment configuration: the credential and the optional preferred model
(environment variables; `none` = unset). -/
structure Env where
  GEMINI_API_KEY : Option Str
  GEMINI_MODEL : Option Str

/-- The value of an environment variable as a JS value. -/
def envVal : Option Str → J
  | none => .undefined
  | some s => .str s

/-- An incoming POST request: the `content-type` header (`none` = absent), the
parsed JSON body (`none` = `request.json()` rejected), and the message of the
parse error for the latter case. -/
structure Req where
  contentType : Option Str
  body : Option J
  parseErrMsg : Str

/-- The content-type guard of comment.js line 29:
`request.headers.get("content-type")?.includes("application/json")`.  An
absent header short-circuits to `undefined`, which fails the check. -/
def ctOk (ct : Option Str) : Bool :=
  match ct with
  | none => false
  | some s => hasSubstr (("application/json").toList) s

/-- The hardcoded fallback model identifiers of comment.js lines 48-55. -/
def hardcodedModels : List Str :=
  [("gemini-1.5-flash-001").toList, ("gemini-1.5-pro-001").toList,
   ("gemini-1.5-flash").toList, ("gemini-1.5-pro").toList]

/-- Body of the 400 response for a non-JSON content type (comment.js line 30). -/
def expectJsonBody : J :=
  .obj (JObj.cons ("error").toList (.str ("Expected application/json").toList) .nil)

/-- Body of the 500 response for a falsy credential (comment.js line 42). -/
def missingKeyBody : J :=
  .obj (JObj.cons ("error").toList (.str ("Missing GEMINI_API_KEY secret").toList) .nil)

/-- The candidate list of comment.js lines 44-55:
`[preferred, ...hardcoded].filter(Boolean)` with
`preferred = safeStr(env.GEMINI_MODEL || "")`; `filter(Boolean)` drops empty
strings, in particular an unset preferred model. -/
def modelCandidatesOf (gm : Option Str) : List Str :=
  (safeStr (jsOr (envVal gm) (.str [])) :: hardcodedModels).filter (fun s => !s.isEmpty)

/-- Function `handleComment` (comment.js lines 25-125).  In source order: reject a
non-JSON content type with 400; parse the body (a parse failure reaches the
outer catch as a 500); sanitize the input fields; reject a falsy credential
(unset or empty) with 500 before any fetch; build the candidate list
(`[preferred, ...hardcoded].filter(Boolean)` where
`preferred = safeStr(env.GEMINI_MODEL || "")`); run the fallback loop.  The
prompt construction (lines 57-80) only feeds the outbound request bodies,
which the transport model does not inspect, so it is not replayed here. -/
def handleComment (env : Env) (req : Req) (tr : Nat → Resp) : HOut :=
  if !ctOk req.contentType then
    ⟨400, expectJsonBody, [], []⟩
  else
    match req.body with
    | none => ⟨500, serverErrorBody req.parseErrMsg, [], []⟩
    | some body =>
        let _studentFirstName := sanitizeName (jGet body (("studentFirstName").toList))
        let _strengthTopics := safeArr (jGet body (("strengthTopics").toList))
        let _developingTopics := safeArr (jGet body (("developingTopics").toList))
        let _focusTopics := safeArr (jGet body (("focusTopics").toList))
        match env.GEMINI_API_KEY with
        | none => ⟨500, missingKeyBody, [], []⟩
        | some apiKey =>
            if apiKey.isEmpty then ⟨500, missingKeyBody, [], []⟩
            else tryModels tr apiKey (modelCandidatesOf env.GEMINI_MODEL) 0 none

/-- Transport position at which candidate `i` of the fallback loop issues its
`fetchWithRetry` call (candidate 0 starts at `pos`; each candidate consumes
the fetches of its retry loop). -/
def posFor (tr : Nat → Resp) (pos : Nat) : Nat → Nat
  | 0 => pos
  | i + 1 =>
      let p := posFor tr pos i
      p + (fetchWithRetry tr 800 3 p).fetches

/-- The post-retry response the fallback loop observes for candidate `i`. -/
def candResp (tr : Nat → Resp) (pos i : Nat) : Resp :=
  (fetchWithRetry tr 800 3 (posFor tr pos i)).resp

/-! ### Concrete inputs for the closed instances below -/

/-- A 404 response whose body text is not valid JSON. -/
def rsp404 : Resp := ⟨404, ("not found").toList, none⟩

/-- A 429 (rate-limited) response. -/
def rsp429 : Resp := ⟨429, [], none⟩

/-- A 200 response whose parsed body has a well-formed
`candidates[0].content.parts[0].text` chain (text with digits and trailing
whitespace). -/
def rsp200good : Resp :=
  ⟨200, [], some (.obj (JObj.cons ("candidates").toList
    (.arr (JArr.cons (.obj (JObj.cons ("content").toList
      (.obj (JObj.cons ("parts").toList
        (.arr (JArr.cons (.obj (JObj.cons ("text").toList
          (.str ("Great work 123  ").toList) .nil)) .nil)) .nil)) .nil)) .nil)) .nil))⟩

/-- A 200 response whose parsed body has `parts` bound to the number 5: in JS,
`parts.map` is then not a function and the extraction raises a TypeError. -/
def rsp200parts5 : Resp :=
  ⟨200, [], some (.obj (JObj.cons ("candidates").toList
    (.arr (JArr.cons (.obj (JObj.cons ("content").toList
      (.obj (JObj.cons ("parts").toList (.num 5) .nil)) .nil)) .nil)) .nil))⟩

/-- Transport: first fetch answers 404, every later fetch 200 (well-formed). -/
def trB : Nat → Resp := fun n => if n = 0 then rsp404 else rsp200good

/-- A well-formed request: JSON content type, empty-object body. -/
def reqStd : Req := ⟨some ("application/json").toList, some (.obj .nil), []⟩

/-- A request with a non-JSON content type. -/
def reqTextPlain : Req := ⟨some ("text/plain").toList, some (.obj .nil), []⟩

/-- Configuration with the (adversarially chosen) credential `Gemini`. -/
def envKeyGemini : Env := ⟨some ("Gemini").toList, none⟩

/-- Configuration with credential `k`. -/
def envKeyK : Env := ⟨some ("k").toList, none⟩

/-- Configuration with no credential. -/
def envNoKey : Env := ⟨none, none⟩

/-! ### Lemmas about trimming and digit stripping -/

theorem dropWhile_head_not {α : Type} (p : α → Bool) :
    ∀ (l : List α) (c : α), (List.dropWhile p l).head? = some c → p c = false := by
  intro l
  induction l with
  | nil => intro c h; simp [List.dropWhile] at h
  | cons a t ih =>
      intro c h
      by_cases hp : p a
      · exact ih c (by simpa [List.dropWhile, hp] using h)
      · simp [List.dropWhile, hp] at h
        subst h
        exact Bool.of_not_eq_true hp

theorem dropWhile_of_head_not {α : Type} (p : α → Bool) (l : List α)
    (h : ∀ c, l.head? = some c → p c = false) : List.dropWhile p l = l := by
  cases l with
  | nil => rfl
  | cons a t => simp [List.dropWhile, h a rfl]

theorem exists_append_dropWhile {α : Type} (p : α → Bool) (l : List α) :
    ∃ t, l = t ++ List.dropWhile p l := by
  induction l with
  | nil => exact ⟨[], rfl⟩
  | cons a t ih =>
      by_cases hp : p a
      · obtain ⟨u, hu⟩ := ih
        exact ⟨a :: u, by simp [List.dropWhile, hp]; exact hu⟩
      · exact ⟨[], by simp [List.dropWhile, hp]⟩

theorem mem_of_mem_dropWhile {α : Type} {p : α → Bool} {l : List α} {a : α}
    (h : a ∈ List.dropWhile p l) : a ∈ l := by
  obtain ⟨t, ht⟩ := exists_append_dropWhile p l
  rw [ht]
  exact List.mem_append_right t h

theorem mem_trimChars {c : Char} {s : Str} (h : c ∈ trimChars s) : c ∈ s := by
  unfold trimChars at h
  rw [List.mem_reverse] at h
  have h1 := mem_of_mem_dropWhile h
  rw [List.mem_reverse] at h1
  exact mem_of_mem_dropWhile h1

theorem dropWhile_dropWhile {α : Type} (p : α → Bool) (l : List α) :
    List.dropWhile p (List.dropWhile p l) = List.dropWhile p l :=
  dropWhile_of_head_not p _ (fun c hc => dropWhile_head_not p l c hc)

theorem trimChars_idem (s : Str) : trimChars (trimChars s) = trimChars s := by
  have key : ∀ u : Str, (∀ c, u.head? = some c → isWsChar c = false) →
      trimChars ((u.reverse.dropWhile isWsChar).reverse) =
        (u.reverse.dropWhile isWsChar).reverse := by
    intro u hu
    unfold trimChars
    have hA : List.dropWhile isWsChar ((u.reverse.dropWhile isWsChar).reverse) =
        (u.reverse.dropWhile isWsChar).reverse := by
      apply dropWhile_of_head_not
      intro c hc
      obtain ⟨t, ht⟩ := exists_append_dropWhile isWsChar u.reverse
      have hpre : u = (u.reverse.dropWhile isWsChar).reverse ++ t.reverse := by
        have h2 := congrArg List.reverse ht
        simpa [List.reverse_append] using h2
      apply hu
      rw [hpre]
      cases hr : (u.reverse.dropWhile isWsChar).reverse with
      | nil => rw [hr] at hc; simp at hc
      | cons a t2 =>
          rw [hr] at hc
          simp at hc
          simp [hc]
    rw [hA, List.reverse_reverse, dropWhile_dropWhile]
  exact key (List.dropWhile isWsChar s)
    (fun c hc => dropWhile_head_not isWsChar s c hc)

theorem stripDigits_eq_filter (s : Str) :
    stripDigits s = s.filter (fun c => !isDigitCh c) := by
  cases s with
  | nil => rfl
  | cons a t => rfl

theorem stripDigits_idem (s : Str) : stripDigits (stripDigits s) = stripDigits s := by
  rw [stripDigits_eq_filter (stripDigits s), stripDigits_eq_filter s,
    List.filter_filter]
  apply List.filter_congr
  intro c _
  cases h : isDigitCh c <;> simp [h]

theorem mem_stripDigits_not_digit {c : Char} {s : Str} (h : c ∈ stripDigits s) :
    isDigitCh c = false := by
  rw [stripDigits_eq_filter] at h
  have := List.of_mem_filter h
  simpa using this

/-! ### Lemmas about the retry loop -/

theorem fetchRetryGo_stops (tr : Nat → Resp) (base : Nat) :
    ∀ (k : Nat) (fuel pos i : Nat) (last : Resp), k < fuel →
      (∀ j, j < k → (tr (pos + j)).status = 429) →
      (tr (pos + k)).status ≠ 429 →
      fetchRetryGo tr base fuel pos i last =
        ⟨tr (pos + k), k + 1, (List.range k).map (fun j => base * 2 ^ (i + j))⟩ := by
  intro k
  induction k with
  | zero =>
      intro fuel pos i last hfuel _ hstop
      cases fuel with
      | zero => omega
      | succ f =>
          have h0 : (tr pos).status ≠ 429 := by simpa using hstop
          simp [fetchRetryGo, h0]
  | succ k ih =>
      intro fuel pos i last hfuel h429 hstop
      cases fuel with
      | zero => omega
      | succ f =>
          have h0 : (tr pos).status = 429 := by
            have := h429 0 (Nat.succ_pos k)
            simpa using this
          have hrest := ih f (pos + 1) (i + 1) (tr pos) (by omega)
            (fun j hj => by
              have := h429 (j + 1) (by omega)
              simpa [Nat.add_assoc, Nat.add_comm 1 j] using this)
            (by
              have : pos + 1 + k = pos + (k + 1) := by omega
              rw [this]; exact hstop)
          have hidx : pos + 1 + k = pos + (k + 1) := by omega
          rw [hidx] at hrest
          simp only [fetchRetryGo, h0, hrest]
          rw [if_pos trivial]
          simp only [FetchResult.mk.injEq]
          refine ⟨by trivial, by trivial, ?_⟩
          rw [List.range_succ_eq_map, List.map_cons, List.map_map]
          refine congrArg₂ List.cons (by rw [Nat.add_zero]) ?_
          apply List.map_congr_left
          intro j _
          simp only [Function.comp_apply]
          have : i + (j + 1) = i + 1 + j := by omega
          rw [this]

theorem fetchRetryGo_succ (tr : Nat → Resp) (base fuel pos i : Nat) (last : Resp) :
    fetchRetryGo tr base (fuel + 1) pos i last =
      if (tr pos).status = 429 then
        ⟨(fetchRetryGo tr base fuel (pos + 1) (i + 1) (tr pos)).resp,
         (fetchRetryGo tr base fuel (pos + 1) (i + 1) (tr pos)).fetches + 1,
         base * 2 ^ i :: (fetchRetryGo tr base fuel (pos + 1) (i + 1) (tr pos)).sleeps⟩
      else ⟨tr pos, 1, []⟩ := rfl

theorem range_map_pow_succ (base i n : Nat) :
    (List.range (n + 1)).map (fun j => base * 2 ^ (i + j)) =
      base * 2 ^ i :: (List.range n).map (fun j => base * 2 ^ (i + 1 + j)) := by
  rw [List.range_succ_eq_map, List.map_cons, List.map_map, Nat.add_zero]
  refine congrArg (List.cons _) (List.map_congr_left ?_)
  intro j _
  simp only [Function.comp_apply]
  have : i + (j + 1) = i + 1 + j := by omega
  rw [this]

theorem fetchRetryGo_all429 (tr : Nat → Resp) (base : Nat) :
    ∀ (fuel pos i : Nat) (last : Resp), 1 ≤ fuel →
      (∀ j, j < fuel → (tr (pos + j)).status = 429) →
      fetchRetryGo tr base fuel pos i last =
        ⟨tr (pos + (fuel - 1)), fuel, (List.range fuel).map (fun j => base * 2 ^ (i + j))⟩ := by
  intro fuel
  induction fuel with
  | zero => intro pos i last h; omega
  | succ f ih =>
      intro pos i last _ h429
      have h0 : (tr pos).status = 429 := by
        have := h429 0 (Nat.succ_pos f)
        simpa using this
      cases f with
      | zero =>
          rw [fetchRetryGo_succ, if_pos h0]
          simp [fetchRetryGo, List.range_succ_eq_map]
      | succ f2 =>
          have hrest := ih (pos + 1) (i + 1) (tr pos) (Nat.succ_pos f2)
            (fun j hj => by
              have := h429 (j + 1) (by omega)
              simpa [Nat.add_assoc, Nat.add_comm 1 j] using this)
          rw [fetchRetryGo_succ, if_pos h0, hrest]
          simp only [FetchResult.mk.injEq]
          refine ⟨?_, by trivial, ?_⟩
          · have : pos + 1 + (f2 + 1 - 1) = pos + (f2 + 1 + 1 - 1) := by omega
            rw [this]
          · simp only [range_map_pow_succ]

theorem fetchRetryGo_fetches_le (tr : Nat → Resp) (base : Nat) :
    ∀ (fuel pos i : Nat) (last : Resp),
      (fetchRetryGo tr base fuel pos i last).fetches ≤ fuel := by
  intro fuel
  induction fuel with
  | zero => intro pos i last; simp [fetchRetryGo]
  | succ f ih =>
      intro pos i last
      by_cases h : (tr pos).status = 429
      · rw [fetchRetryGo_succ, if_pos h]
        have := ih (pos + 1) (i + 1) (tr pos)
        simpa using Nat.add_le_add_right this 1
      · rw [fetchRetryGo_succ, if_neg h]
        show 1 ≤ f + 1
        omega

/-- First non-429 response within the retry budget: `fetchWithRetry` returns
it, having fetched `k + 1` times and slept `k` times. -/
theorem fetchWithRetry_stops (tr : Nat → Resp) (base retries pos k : Nat)
    (hk : k ≤ retries)
    (h429 : ∀ j, j < k → (tr (pos + j)).status = 429)
    (hstop : (tr (pos + k)).status ≠ 429) :
    fetchWithRetry tr base retries pos =
      ⟨tr (pos + k), k + 1, (List.range k).map (fun j => base * 2 ^ j)⟩ := by
  unfold fetchWithRetry
  rw [fetchRetryGo_stops tr base k (retries + 1) pos 0 respUninit (by omega) h429 hstop]
  simp

/-- All attempts rate-limited: `fetchWithRetry` returns the last 429 response
after `retries + 1` fetches and `retries + 1` sleeps. -/
theorem fetchWithRetry_all429 (tr : Nat → Resp) (base retries pos : Nat)
    (h429 : ∀ j, j ≤ retries → (tr (pos + j)).status = 429) :
    fetchWithRetry tr base retries pos =
      ⟨tr (pos + retries), retries + 1,
        (List.range (retries + 1)).map (fun j => base * 2 ^ j)⟩ := by
  unfold fetchWithRetry
  rw [fetchRetryGo_all429 tr base (retries + 1) pos 0 respUninit (by omega)
    (fun j hj => h429 j (by omega))]
  simp

theorem fetchWithRetry_fetches_le (tr : Nat → Resp) (base retries pos : Nat) :
    (fetchWithRetry tr base retries pos).fetches ≤ retries + 1 :=
  fetchRetryGo_fetches_le tr base (retries + 1) pos 0 respUninit

/-! ### Lemmas about the candidate fallback loop -/

theorem tryModels_nil (tr : Nat → Resp) (key : Str) (pos : Nat) (le : Option LastErr) :
    tryModels tr key [] pos le =
      ⟨(match le with
        | some e => if e.status = 0 then 500 else e.status
        | none => 500), gemErrorBody le, [], []⟩ := rfl

theorem tryModels_cons (tr : Nat → Resp) (key model : Str) (rest : List Str)
    (pos : Nat) (le : Option LastErr) :
    tryModels tr key (model :: rest) pos le =
      if respOk (fetchWithRetry tr 800 3 pos).resp then
        match extractText (safeJson (fetchWithRetry tr 800 3 pos).resp) with
        | none =>
            ⟨500, serverErrorBody (("TypeError").toList), [model],
              List.replicate (fetchWithRetry tr 800 3 pos).fetches (endpointFor key model)⟩
        | some text =>
            ⟨200, commentBody (trimChars (stripDigits text)) model, [model],
              List.replicate (fetchWithRetry tr 800 3 pos).fetches (endpointFor key model)⟩
      else
        ⟨(tryModels tr key rest (pos + (fetchWithRetry tr 800 3 pos).fetches)
            (some ⟨(fetchWithRetry tr 800 3 pos).resp.status,
              safeJson (fetchWithRetry tr 800 3 pos).resp, model⟩)).status,
         (tryModels tr key rest (pos + (fetchWithRetry tr 800 3 pos).fetches)
            (some ⟨(fetchWithRetry tr 800 3 pos).resp.status,
              safeJson (fetchWithRetry tr 800 3 pos).resp, model⟩)).body,
         model :: (tryModels tr key rest (pos + (fetchWithRetry tr 800 3 pos).fetches)
            (some ⟨(fetchWithRetry tr 800 3 pos).resp.status,
              safeJson (fetchWithRetry tr 800 3 pos).resp, model⟩)).attempts,
         List.replicate (fetchWithRetry tr 800 3 pos).fetches (endpointFor key model) ++
           (tryModels tr key rest (pos + (fetchWithRetry tr 800 3 pos).fetches)
             (some ⟨(fetchWithRetry tr 800 3 pos).resp.status,
               safeJson (fetchWithRetry tr 800 3 pos).resp, model⟩)).calls⟩ := rfl

theorem candResp_zero (tr : Nat → Resp) (pos : Nat) :
    candResp tr pos 0 = (fetchWithRetry tr 800 3 pos).resp := rfl

theorem posFor_shift (tr : Nat → Resp) (pos : Nat) :
    ∀ j, posFor tr (pos + (fetchWithRetry tr 800 3 pos).fetches) j =
      posFor tr pos (j + 1) := by
  intro j
  induction j with
  | zero => simp [posFor]
  | succ j ih => simp [posFor, ih]

theorem candResp_shift (tr : Nat → Resp) (pos : Nat) (j : Nat) :
    candResp tr (pos + (fetchWithRetry tr 800 3 pos).fetches) j =
      candResp tr pos (j + 1) := by
  unfold candResp
  rw [posFor_shift]

theorem tryModels_firstOk (tr : Nat → Resp) (key : Str) :
    ∀ (models : List Str) (i pos : Nat) (le : Option LastErr) (hi : i < models.length),
      respOk (candResp tr pos i) = true →
      (∀ j, j < i → respOk (candResp tr pos j) = false) →
      (tryModels tr key models pos le).attempts = models.take (i + 1) ∧
      (∀ txt, extractText (safeJson (candResp tr pos i)) = some txt →
        (tryModels tr key models pos le).status = 200 ∧
        (tryModels tr key models pos le).body =
          commentBody (trimChars (stripDigits txt)) (models.get ⟨i, hi⟩)) ∧
      (extractText (safeJson (candResp tr pos i)) = none →
        (tryModels tr key models pos le).status = 500 ∧
        (tryModels tr key models pos le).body = serverErrorBody (("TypeError").toList)) := by
  intro models
  induction models with
  | nil => intro i pos le hi; simp at hi
  | cons m rest ih =>
      intro i pos le hi hok hprev
      cases i with
      | zero =>
          rw [candResp_zero] at hok
          rw [tryModels_cons, if_pos hok]
          cases hext : extractText (safeJson (fetchWithRetry tr 800 3 pos).resp) with
          | none =>
              refine ⟨rfl, ?_, ?_⟩
              · intro txt htxt
                rw [candResp_zero, hext] at htxt
                exact absurd htxt (by simp)
              · intro _
                exact ⟨rfl, rfl⟩
          | some txt0 =>
              refine ⟨rfl, ?_, ?_⟩
              · intro txt htxt
                rw [candResp_zero, hext] at htxt
                have : txt0 = txt := by simpa using htxt
                subst this
                exact ⟨rfl, rfl⟩
              · intro hnone
                rw [candResp_zero, hext] at hnone
                exact absurd hnone (by simp)
      | succ i2 =>
          have h0 : respOk (candResp tr pos 0) = false := hprev 0 (Nat.succ_pos i2)
          rw [candResp_zero] at h0
          rw [tryModels_cons, if_neg (by simp [h0])]
          have hrec := ih i2 (pos + (fetchWithRetry tr 800 3 pos).fetches)
            (some ⟨(fetchWithRetry tr 800 3 pos).resp.status,
              safeJson (fetchWithRetry tr 800 3 pos).resp, m⟩)
            (by simpa using Nat.lt_of_succ_lt_succ hi)
            (by rw [candResp_shift]; exact hok)
            (fun j hj => by rw [candResp_shift]; exact hprev (j + 1) (by omega))
          obtain ⟨hatt, hsome, hnone⟩ := hrec
          refine ⟨?_, ?_, ?_⟩
          · simp only [List.take]
            rw [hatt]
          · intro txt htxt
            rw [← candResp_shift] at htxt
            exact hsome txt htxt
          · intro htxt
            rw [← candResp_shift] at htxt
            exact hnone htxt

theorem tryModels_allFail (tr : Nat → Resp) (key : Str) :
    ∀ (models : List Str) (pos : Nat) (le : Option LastErr) (hne : models ≠ []),
      (∀ j, j < models.length → respOk (candResp tr pos j) = false) →
      (tryModels tr key models pos le).status =
        (if (candResp tr pos (models.length - 1)).status = 0 then 500
         else (candResp tr pos (models.length - 1)).status) ∧
      (tryModels tr key models pos le).body =
        gemErrorBody (some ⟨(candResp tr pos (models.length - 1)).status,
          safeJson (candResp tr pos (models.length - 1)), models.getLast hne⟩) ∧
      (tryModels tr key models pos le).attempts = models := by
  intro models
  induction models with
  | nil => intro pos le hne; exact absurd rfl hne
  | cons m rest ih =>
      intro pos le hne hfail
      have h0 : respOk (candResp tr pos 0) = false := hfail 0 (by simp)
      rw [candResp_zero] at h0
      rw [tryModels_cons, if_neg (by simp [h0])]
      cases rest with
      | nil =>
          rw [tryModels_nil]
          refine ⟨?_, ?_, rfl⟩
          · simp [candResp_zero]
          · simp [candResp_zero, List.getLast]
      | cons r rest2 =>
          have hrec := ih (pos + (fetchWithRetry tr 800 3 pos).fetches)
            (some ⟨(fetchWithRetry tr 800 3 pos).resp.status,
              safeJson (fetchWithRetry tr 800 3 pos).resp, m⟩)
            (by simp)
            (fun j hj => by
              rw [candResp_shift]
              exact hfail (j + 1) (by simpa using Nat.succ_lt_succ hj))
          obtain ⟨hst, hbody, hatt⟩ := hrec
          have hlen : (r :: rest2).length - 1 + 1 = (m :: r :: rest2).length - 1 := by
            simp
          refine ⟨?_, ?_, ?_⟩
          · rw [hst, candResp_shift, hlen]
          · rw [hbody, candResp_shift, hlen]
            have hgl : (m :: r :: rest2).getLast (by simp) = (r :: rest2).getLast (by simp) :=
              List.getLast_cons (by simp)
            rw [hgl]
          · rw [hatt]

theorem tryModels_200_shape (tr : Nat → Resp) (key : Str) :
    ∀ (models : List Str) (pos : Nat) (le : Option LastErr),
      (∀ e, le = some e → e.status ≠ 200) →
      (tryModels tr key models pos le).status = 200 →
      ∃ txt m, (tryModels tr key models pos le).body =
        commentBody (trimChars (stripDigits txt)) m := by
  intro models
  induction models with
  | nil =>
      intro pos le hinv h200
      rw [tryModels_nil] at h200
      cases le with
      | none => simp at h200
      | some e =>
          by_cases h0 : e.status = 0
          · simp [h0] at h200
          · simp [h0] at h200
            exact absurd h200 (hinv e rfl)
  | cons m rest ih =>
      intro pos le hinv h200
      by_cases hok : respOk (fetchWithRetry tr 800 3 pos).resp = true
      · rw [tryModels_cons, if_pos hok] at h200 ⊢
        cases hext : extractText (safeJson (fetchWithRetry tr 800 3 pos).resp) with
        | none => rw [hext] at h200; simp at h200
        | some txt => exact ⟨txt, m, rfl⟩
      · rw [tryModels_cons, if_neg hok] at h200 ⊢
        have hne200 : (fetchWithRetry tr 800 3 pos).resp.status ≠ 200 := by
          intro hc
          apply hok
          simp [respOk, hc]
        exact ih (pos + (fetchWithRetry tr 800 3 pos).fetches)
          (some ⟨(fetchWithRetry tr 800 3 pos).resp.status,
            safeJson (fetchWithRetry tr 800 3 pos).resp, m⟩)
          (fun e he => by
            have : e = ⟨(fetchWithRetry tr 800 3 pos).resp.status,
              safeJson (fetchWithRetry tr 800 3 pos).resp, m⟩ := by
              simpa using he.symm
            rw [this]
            exact hne200)
          h200

theorem tryModels_key_indep (tr : Nat → Resp) :
    ∀ (models : List Str) (pos : Nat) (le : Option LastErr) (k1 k2 : Str),
      (tryModels tr k1 models pos le).status = (tryModels tr k2 models pos le).status ∧
      (tryModels tr k1 models pos le).body = (tryModels tr k2 models pos le).body ∧
      (tryModels tr k1 models pos le).attempts = (tryModels tr k2 models pos le).attempts := by
  intro models
  induction models with
  | nil => intro pos le k1 k2; exact ⟨rfl, rfl, rfl⟩
  | cons m rest ih =>
      intro pos le k1 k2
      by_cases hok : respOk (fetchWithRetry tr 800 3 pos).resp = true
      · rw [tryModels_cons, tryModels_cons, if_pos hok, if_pos hok]
        cases hext : extractText (safeJson (fetchWithRetry tr 800 3 pos).resp) with
        | none => exact ⟨rfl, rfl, rfl⟩
        | some txt => exact ⟨rfl, rfl, rfl⟩
      · rw [tryModels_cons, tryModels_cons, if_neg hok, if_neg hok]
        have hrec := ih (pos + (fetchWithRetry tr 800 3 pos).fetches)
          (some ⟨(fetchWithRetry tr 800 3 pos).resp.status,
            safeJson (fetchWithRetry tr 800 3 pos).resp, m⟩) k1 k2
        obtain ⟨h1, h2, h3⟩ := hrec
        exact ⟨h1, h2, by rw [h3]⟩

/-! ### Lemmas about the handler -/

theorem handleComment_ct_bad (env : Env) (req : Req) (tr : Nat → Resp)
    (h : ctOk req.contentType = false) :
    handleComment env req tr = ⟨400, expectJsonBody, [], []⟩ := by
  simp [handleComment, h]

theorem handleComment_parse_fail (env : Env) (req : Req) (tr : Nat → Resp)
    (hct : ctOk req.contentType = true) (hb : req.body = none) :
    handleComment env req tr = ⟨500, serverErrorBody req.parseErrMsg, [], []⟩ := by
  simp [handleComment, hct, hb]

theorem handleComment_no_key (env : Env) (req : Req) (tr : Nat → Resp) (b : J)
    (hct : ctOk req.contentType = true) (hb : req.body = some b)
    (hk : env.GEMINI_API_KEY = none) :
    handleComment env req tr = ⟨500, missingKeyBody, [], []⟩ := by
  simp [handleComment, hct, hb, hk]

theorem handleComment_empty_key (env : Env) (req : Req) (tr : Nat → Resp) (b : J)
    (hct : ctOk req.contentType = true) (hb : req.body = some b)
    (hk : env.GEMINI_API_KEY = some []) :
    handleComment env req tr = ⟨500, missingKeyBody, [], []⟩ := by
  simp [handleComment, hct, hb, hk]

theorem handleComment_run (env : Env) (req : Req) (tr : Nat → Resp) (b : J) (k : Str)
    (hct : ctOk req.contentType = true) (hb : req.body = some b)
    (hk : env.GEMINI_API_KEY = some k) (hne : k.isEmpty = false) :
    handleComment env req tr = tryModels tr k (modelCandidatesOf env.GEMINI_MODEL) 0 none := by
  simp [handleComment, hct, hb, hk, hne]

theorem handleComment_200_shape (env : Env) (req : Req) (tr : Nat → Resp)
    (h : (handleComment env req tr).status = 200) :
    ∃ txt m, (handleComment env req tr).body =
      commentBody (trimChars (stripDigits txt)) m := by
  by_cases hct : ctOk req.contentType
  · cases hb : req.body with
    | none =>
        rw [handleComment_parse_fail env req tr hct hb] at h
        simp at h
    | some b =>
        cases hk : env.GEMINI_API_KEY with
        | none =>
            rw [handleComment_no_key env req tr b hct hb hk] at h
            simp at h
        | some k =>
            cases k with
            | nil =>
                rw [handleComment_empty_key env req tr b hct hb hk] at h
                simp at h
            | cons c cs =>
                have hne : (c :: cs).isEmpty = false := rfl
                rw [handleComment_run env req tr b (c :: cs) hct hb hk hne] at h ⊢
                exact tryModels_200_shape tr (c :: cs) (modelCandidatesOf env.GEMINI_MODEL)
                  0 none (fun e he => Option.noConfusion he) h
  · rw [handleComment_ct_bad env req tr (by simpa using hct)] at h
    simp at h

/-! ### Claim theorems -/

/-- Claim C2: retry is triggered only by rate limiting.  First part: at the
first response within the retry budget whose status is not 429, `fetchWithRetry`
returns that response, having fetched exactly `k + 1` times and slept exactly
`k` times (no further fetch and no sleep after the non-429 response).  Second
part: when every attempt up to the bound (`retries + 1` attempts, 4 with the
default `retries = 3`) answers 429, the function returns the last 429 response
itself, with status 429, rather than throwing or converting it. -/
theorem retry_only_on_429 :
    (∀ (tr : Nat → Resp) (base retries pos k : Nat), k ≤ retries →
      (∀ j, j < k → (tr (pos + j)).status = 429) →
      (tr (pos + k)).status ≠ 429 →
      (fetchWithRetry tr base retries pos).resp = tr (pos + k) ∧
      (fetchWithRetry tr base retries pos).fetches = k + 1 ∧
      (fetchWithRetry tr base retries pos).sleeps.length = k) ∧
    (∀ (tr : Nat → Resp) (base retries pos : Nat),
      (∀ j, j ≤ retries → (tr (pos + j)).status = 429) →
      (fetchWithRetry tr base retries pos).resp = tr (pos + retries) ∧
      (fetchWithRetry tr base retries pos).resp.status = 429 ∧
      (fetchWithRetry tr base retries pos).fetches = retries + 1) := by
  constructor
  · intro tr base retries pos k hk h429 hstop
    rw [fetchWithRetry_stops tr base retries pos k hk h429 hstop]
    simp
  · intro tr base retries pos h429
    rw [fetchWithRetry_all429 tr base retries pos h429]
    exact ⟨rfl, h429 retries (Nat.le_refl retries), rfl⟩

/-- Witness for C2: with responses 429 then 200, the second fetch's 200 is
returned after exactly 2 fetches and 1 sleep; with all responses 429 the
returned response has status 429. -/
theorem retry_only_on_429_witness :
    (fetchWithRetry (fun n => if n = 0 then rsp429 else rsp200good) 800 3 0).fetches = 2 ∧
    (fetchWithRetry (fun _ => rsp429) 800 3 0).resp.status = 429 := by
  constructor
  · exact (retry_only_on_429.1 (fun n => if n = 0 then rsp429 else rsp200good) 800 3 0 1
      (by decide)
      (fun j hj => by
        have hj0 : j = 0 := by omega
        subst hj0
        decide)
      (by decide)).2.1
  · exact (retry_only_on_429.2 (fun _ => rsp429) 800 3 0 (fun j _ => rfl)).2.1

/-- Claim C3: for the response sequence 429, 429, 200, `fetchWithRetry` (with
the source's default `retries = 3`) performs exactly 2 backoff sleeps of
`base * 2 ^ 0` and `base * 2 ^ 1` milliseconds (doubling, no jitter; the
source uses base 800 in comment.js and base 1000 in the `part_000` variant)
and returns the final 200 response; and the loop is bounded by `retries + 1`
fetches (4 by default). -/
theorem backoff_schedule_429_429_200 :
    (∀ (tr : Nat → Resp) (base pos : Nat),
      (tr pos).status = 429 → (tr (pos + 1)).status = 429 →
      (tr (pos + 2)).status = 200 →
      (fetchWithRetry tr base 3 pos).resp = tr (pos + 2) ∧
      (fetchWithRetry tr base 3 pos).resp.status = 200 ∧
      (fetchWithRetry tr base 3 pos).sleeps = [base * 2 ^ 0, base * 2 ^ 1] ∧
      (fetchWithRetry tr base 3 pos).sleeps.length = 2) ∧
    (∀ (tr : Nat → Resp) (base retries pos : Nat),
      (fetchWithRetry tr base retries pos).fetches ≤ retries + 1) := by
  constructor
  · intro tr base pos h0 h1 h2
    have hstop : (tr (pos + 2)).status ≠ 429 := by rw [h2]; omega
    have h429 : ∀ j, j < 2 → (tr (pos + j)).status = 429 := by
      intro j hj
      match j, hj with
      | 0, _ => simpa using h0
      | 1, _ => exact h1
    rw [fetchWithRetry_stops tr base 3 pos 2 (by omega) h429 hstop]
    refine ⟨rfl, h2, ?_, rfl⟩
    simp [List.range_succ]
  · intro tr base retries pos
    exact fetchWithRetry_fetches_le tr base retries pos

/-- Witness for C3 at base 800 (comment.js) and base 1000 (part_000). -/
theorem backoff_schedule_429_429_200_witness :
    (fetchWithRetry (fun n => if n < 2 then rsp429 else rsp200good) 800 3 0).sleeps =
      [800, 1600] ∧
    (fetchWithRetry (fun n => if n < 2 then rsp429 else rsp200good) 1000 3 0).sleeps =
      [1000, 2000] ∧
    (fetchWithRetry (fun n => if n < 2 then rsp429 else rsp200good) 800 3 0).resp.status = 200 := by
  have h8 := backoff_schedule_429_429_200.1 (fun n => if n < 2 then rsp429 else rsp200good)
    800 0 (by decide) (by decide) (by decide)
  have h10 := backoff_schedule_429_429_200.1 (fun n => if n < 2 then rsp429 else rsp200good)
    1000 0 (by decide) (by decide) (by decide)
  refine ⟨?_, ?_, h8.2.1⟩
  · rw [h8.2.2.1]
    decide
  · rw [h10.2.2.1]
    decide

/-- Claim C10: when every attempt is rate-limited, the loop sleeps after the
final 429 as well: with the default `retries = 3`, an all-429 run performs 4
fetches and 4 sleeps (`base * 2 ^ 0` through `base * 2 ^ 3`) before returning
the last response — retry exhaustion pays one trailing backoff that buys no
further attempt. -/
theorem retry_exhaustion_trailing_sleep :
    ∀ (tr : Nat → Resp) (base pos : Nat),
      (∀ j, j < 4 → (tr (pos + j)).status = 429) →
      (fetchWithRetry tr base 3 pos).resp = tr (pos + 3) ∧
      (fetchWithRetry tr base 3 pos).fetches = 4 ∧
      (fetchWithRetry tr base 3 pos).sleeps =
        [base * 2 ^ 0, base * 2 ^ 1, base * 2 ^ 2, base * 2 ^ 3] := by
  intro tr base pos h
  rw [fetchWithRetry_all429 tr base 3 pos (fun j hj => h j (by omega))]
  refine ⟨rfl, rfl, ?_⟩
  simp [List.range_succ]

/-- Witness for C10: an all-429 transport with base 800 sleeps
800, 1600, 3200, 6400 ms across 4 fetches. -/
theorem retry_exhaustion_trailing_sleep_witness :
    (fetchWithRetry (fun _ => rsp429) 800 3 0).fetches = 4 ∧
    (fetchWithRetry (fun _ => rsp429) 800 3 0).sleeps = [800, 1600, 3200, 6400] := by
  have h := retry_exhaustion_trailing_sleep (fun _ => rsp429) 800 0 (fun j _ => rfl)
  refine ⟨h.2.1, ?_⟩
  rw [h.2.2]
  decide

/-- Claim C5: `safeArr` yields the empty sequence on non-arrays, and on arrays
yields, in original order, the first 10 elements that are non-empty after
coercion to string and trimming; a list with at least 10 such entries yields
exactly 10; every result entry is non-empty and trimmed. -/
theorem safeArr_sanitization :
    (∀ v : J, (∀ l, v ≠ J.arr l) → safeArr v = []) ∧
    (∀ l : JArr, safeArr (J.arr l) =
      ((l.toList.map (fun x => trimChars (jsString (jsCoalesce x (.str []))))).filter
        (fun s => !s.isEmpty)).take 10) ∧
    (∀ (v : J) (s : Str), s ∈ safeArr v → s ≠ [] ∧ trimChars s = s) ∧
    (∀ l : JArr,
      10 ≤ ((l.toList.map (fun x => trimChars (jsString (jsCoalesce x (.str []))))).filter
        (fun s => !s.isEmpty)).length →
      (safeArr (J.arr l)).length = 10) := by
  refine ⟨?_, ?_, ?_, ?_⟩
  · intro v hv
    cases v with
    | arr l => exact absurd rfl (hv l)
    | undefined => rfl
    | null => rfl
    | bool b => rfl
    | num n => rfl
    | str s => rfl
    | obj f => rfl
  · intro l
    rfl
  · intro v s hs
    cases v with
    | arr l =>
        have hs2 := List.mem_of_mem_take hs
        have hpair := List.mem_filter.mp hs2
        have hne : (!s.isEmpty) = true := hpair.2
        obtain ⟨x, _, hx⟩ := List.mem_map.mp hpair.1
        constructor
        · intro hc
          rw [hc] at hne
          simp at hne
        · rw [← hx]
          exact trimChars_idem _
    | undefined => simp [safeArr] at hs
    | null => simp [safeArr] at hs
    | bool b => simp [safeArr] at hs
    | num n => simp [safeArr] at hs
    | str s2 => simp [safeArr] at hs
    | obj f => simp [safeArr] at hs
  · intro l hlen
    show (((l.toList.map (fun x => trimChars (jsString (jsCoalesce x (.str []))))).filter
      (fun s => !s.isEmpty)).take 10).length = 10
    rw [List.length_take]
    omega

/-- Witness for C5: an 11-entry array of non-empty strings sanitizes to
exactly 10 entries, and a non-array sanitizes to the empty list. -/
theorem safeArr_sanitization_witness :
    (safeArr (J.arr (JArr.ofList [.str (['a']), .str (['b']), .str (['c']),
      .str (['d']), .str (['e']), .str (['f']), .str (['g']), .str (['h']),
      .str (['i']), .str (['j']), .str (['k'])]))).length = 10 ∧
    safeArr (J.num 7) = [] := by
  constructor
  · exact safeArr_sanitization.2.2.2
      (JArr.ofList [.str (['a']), .str (['b']), .str (['c']), .str (['d']),
        .str (['e']), .str (['f']), .str (['g']), .str (['h']), .str (['i']),
        .str (['j']), .str (['k'])])
      (by decide)
  · exact safeArr_sanitization.1 (J.num 7) (fun l h => J.noConfusion h)

/-- Claim C6: every successful generation result (a handler run returning
status 200) carries a comment that contains no digit 0-9 and is trimmed of
surrounding whitespace, and `stripDigits` is idempotent. -/
theorem comment_digit_free_trimmed :
    (∀ (env : Env) (req : Req) (tr : Nat → Resp),
      (handleComment env req tr).status = 200 →
      ∃ c m, (handleComment env req tr).body = commentBody c m ∧
        (∀ ch, ch ∈ c → isDigitCh ch = false) ∧ trimChars c = c) ∧
    (∀ s : Str, stripDigits (stripDigits s) = stripDigits s) := by
  constructor
  · intro env req tr h200
    obtain ⟨txt, m, hbody⟩ := handleComment_200_shape env req tr h200
    refine ⟨trimChars (stripDigits txt), m, hbody, ?_, trimChars_idem _⟩
    intro ch hch
    exact mem_stripDigits_not_digit (mem_trimChars hch)
  · exact stripDigits_idem

/-- Witness for C6: a concrete run that succeeds (status 200), to which the
theorem applies; the generated text contains digits and trailing whitespace
which the returned comment lacks. -/
theorem comment_digit_free_trimmed_witness :
    (handleComment envKeyK reqStd trB).status = 200 ∧
    (∃ c m, (handleComment envKeyK reqStd trB).body = commentBody c m ∧
      (∀ ch, ch ∈ c → isDigitCh ch = false) ∧ trimChars c = c) ∧
    stripDigits (stripDigits (("a1b2").toList)) = stripDigits (("a1b2").toList) := by
  refine ⟨by decide, ?_, comment_digit_free_trimmed.2 (("a1b2").toList)⟩
  exact comment_digit_free_trimmed.1 envKeyK reqStd trB (by decide)

/-- Claim C7 counterexample: a whitespace-only `studentFirstName` (the string
consisting of one space) is truthy, so it is not replaced by `Student`, and
trimming it produces the empty string — the sanitized name CAN be the empty
string, contradicting the claim. -/
theorem name_whitespace_empty_cex :
    sanitizeName (J.str [' ']) = [] ∧ sanitizeName (J.str [' ']) ≠ ("Student").toList := by
  constructor
  · decide
  · decide

/-- Claim C7 (amended): the sanitized name is the trimmed string coercion of
the supplied field when the field is truthy, and `Student` when it is falsy
(in particular when absent or the empty string); sanitization is total (never
throws); but for a whitespace-only field the sanitized name is empty. -/
theorem name_defaulting_amended :
    (∀ v : J, truthy v = true → sanitizeName v = trimChars (jsString v)) ∧
    (∀ v : J, truthy v = false → sanitizeName v = ("Student").toList) ∧
    sanitizeName J.undefined = ("Student").toList ∧
    sanitizeName (J.str []) = ("Student").toList := by
  refine ⟨?_, ?_, by decide, by decide⟩
  · intro v hv
    unfold sanitizeName jsOr
    rw [if_pos hv]
    cases v with
    | undefined => simp [truthy] at hv
    | null => simp [truthy] at hv
    | bool b => rfl
    | num n => rfl
    | str s => rfl
    | arr l => rfl
    | obj f => rfl
  · intro v hv
    unfold sanitizeName jsOr
    rw [if_neg (by simp [hv])]
    decide

/-- Witness for the amended C7: a name with surrounding whitespace is trimmed,
and the number 0 (falsy) defaults to `Student`. -/
theorem name_defaulting_amended_witness :
    sanitizeName (J.str ((" Bob ").toList)) = trimChars (jsString (J.str ((" Bob ").toList))) ∧
    sanitizeName (J.num 0) = ("Student").toList := by
  constructor
  · exact name_defaulting_amended.1 (J.str ((" Bob ").toList)) (by decide)
  · exact name_defaulting_amended.2.1 (J.num 0) (by decide)

/-- Claim C1 counterexample: an assignment of upstream responses under which
the first candidate answers 2xx and yet the handler does not return a success
response built from it: the 200 body binds `candidates[0].content.parts` to
the number 5, so `parts.map` raises a TypeError and the loop is abandoned with
a 500 server error instead of a success response. -/
theorem fallback_first_ok_not_success_cex :
    respOk (candResp (fun _ => rsp200parts5) 0 0) = true ∧
    (tryModels (fun _ => rsp200parts5) (("k").toList) [("A").toList] 0 none).status = 500 ∧
    (tryModels (fun _ => rsp200parts5) (("k").toList) [("A").toList] 0 none).body =
      serverErrorBody (("TypeError").toList) := by
  refine ⟨by decide, by decide, rfl⟩

/-- Claim C1 (amended): the fallback loop attempts candidates strictly in
order; at the first candidate whose (post-retry) response is 2xx it stops —
the attempted candidates are exactly the first `i + 1` — and, provided text
extraction from that response's parsed body does not raise a TypeError,
returns the success response built from that candidate's response annotated
with that candidate's identifier; when extraction raises, it returns a 500
server error, still attempting no later candidate. -/
theorem fallback_first_success_amended :
    ∀ (tr : Nat → Resp) (key : Str) (models : List Str) (i : Nat)
      (hi : i < models.length),
      respOk (candResp tr 0 i) = true →
      (∀ j, j < i → respOk (candResp tr 0 j) = false) →
      (tryModels tr key models 0 none).attempts = models.take (i + 1) ∧
      (∀ txt, extractText (safeJson (candResp tr 0 i)) = some txt →
        (tryModels tr key models 0 none).status = 200 ∧
        (tryModels tr key models 0 none).body =
          commentBody (trimChars (stripDigits txt)) (models.get ⟨i, hi⟩)) ∧
      (extractText (safeJson (candResp tr 0 i)) = none →
        (tryModels tr key models 0 none).status = 500) := by
  intro tr key models i hi hok hprev
  have h := tryModels_firstOk tr key models i 0 none hi hok hprev
  exact ⟨h.1, h.2.1, fun hn => (h.2.2 hn).1⟩

/-- Witness for the amended C1, instantiating the spec's example: candidates
A, B, C with A answering 404 and B answering 200 — the handler succeeds using
B's response and never calls C (the attempted list is exactly A, B). -/
theorem fallback_first_success_witness :
    (tryModels trB (("k").toList) [("A").toList, ("B").toList, ("C").toList] 0 none).attempts =
      [("A").toList, ("B").toList] ∧
    (tryModels trB (("k").toList) [("A").toList, ("B").toList, ("C").toList] 0 none).status = 200 ∧
    (tryModels trB (("k").toList) [("A").toList, ("B").toList, ("C").toList] 0 none).body =
      commentBody (("Great work").toList) (("B").toList) := by
  have h := fallback_first_success_amended trB (("k").toList)
    [("A").toList, ("B").toList, ("C").toList] 1 (by decide)
    (by decide)
    (fun j hj => by
      have hj0 : j = 0 := by omega
      subst hj0
      decide)
  have hb := h.2.1 (("Great work 123  ").toList) (by decide)
  exact ⟨h.1, hb.1, hb.2⟩

/-- Claim C4 counterexample: with the credential absent but a non-JSON content
type, the handler returns 400 (the content-type check precedes the credential
check), not the claimed 500 — though it still performs no outbound call. -/
theorem missing_key_content_type_cex :
    (handleComment envNoKey reqTextPlain trB).status = 400 ∧
    (handleComment envNoKey reqTextPlain trB).status ≠ 500 ∧
    (handleComment envNoKey reqTextPlain trB).calls = [] := by
  refine ⟨by decide, by decide, by decide⟩

/-- Claim C4 (amended): when the configured credential is absent the handler
performs zero outbound network calls, and it returns status 500 whenever the
request's content type passes the JSON check (a request failing that check is
rejected earlier with 400, still with zero outbound calls). -/
theorem missing_key_amended :
    ∀ (env : Env) (req : Req) (tr : Nat → Resp), env.GEMINI_API_KEY = none →
      (handleComment env req tr).calls = [] ∧
      (ctOk req.contentType = true → (handleComment env req tr).status = 500) ∧
      (ctOk req.contentType = false → (handleComment env req tr).status = 400) := by
  intro env req tr hk
  by_cases hct : ctOk req.contentType
  · cases hb : req.body with
    | none =>
        rw [handleComment_parse_fail env req tr hct hb]
        exact ⟨rfl, fun _ => rfl, fun hc => absurd hct (by simp [hc])⟩
    | some b =>
        rw [handleComment_no_key env req tr b hct hb hk]
        exact ⟨rfl, fun _ => rfl, fun hc => absurd hct (by simp [hc])⟩
  · have hcf : ctOk req.contentType = false := by simpa using hct
    rw [handleComment_ct_bad env req tr hcf]
    exact ⟨rfl, fun hc => absurd hc (by simp [hcf]), fun _ => rfl⟩

/-- Witness for the amended C4: a JSON request with no configured credential
gets a 500 and zero fetches. -/
theorem missing_key_amended_witness :
    (handleComment envNoKey reqStd (fun _ => rsp404)).calls = [] ∧
    (handleComment envNoKey reqStd (fun _ => rsp404)).status = 500 := by
  have h := missing_key_amended envNoKey reqStd (fun _ => rsp404) rfl
  exact ⟨h.1, h.2.1 (by decide)⟩

/-- Claim C8: a provider body that is not valid JSON never crashes the
handler (all functions below are total); `safeJson` wraps it as
`(raw : <text>)`, and when every candidate fails and the last failing
response both has an unparseable body and a non-2xx HTTP status (a real
status, i.e. non-zero — `lastErr?.status || 500` maps 0 to 500), the handler
returns that status with the wrapped raw body attached inside `lastError`. -/
theorem malformed_json_wrapped :
    (∀ r : Resp, r.parsed = none →
      safeJson r = .obj (JObj.cons ("raw").toList (.str r.text) .nil)) ∧
    (∀ (tr : Nat → Resp) (key : Str) (models : List Str) (hne : models ≠ []),
      (∀ j, j < models.length → respOk (candResp tr 0 j) = false) →
      (candResp tr 0 (models.length - 1)).parsed = none →
      (candResp tr 0 (models.length - 1)).status ≠ 0 →
      (tryModels tr key models 0 none).status = (candResp tr 0 (models.length - 1)).status ∧
      (tryModels tr key models 0 none).body =
        gemErrorBody (some ⟨(candResp tr 0 (models.length - 1)).status,
          .obj (JObj.cons ("raw").toList
            (.str (candResp tr 0 (models.length - 1)).text) .nil),
          models.getLast hne⟩)) := by
  constructor
  · intro r h
    simp [safeJson, h]
  · intro tr key models hne hfail hparse hst0
    have h := tryModels_allFail tr key models 0 none hne hfail
    refine ⟨?_, ?_⟩
    · rw [h.1, if_neg hst0]
    · rw [h.2.1]
      simp [safeJson, hparse]

/-- Witness for C8: one candidate, upstream 404 with an unparseable body — the
handler surfaces status 404 with the raw text wrapped in the error body. -/
theorem malformed_json_wrapped_witness :
    safeJson rsp404 = .obj (JObj.cons ("raw").toList (.str (("not found").toList)) .nil) ∧
    (tryModels (fun _ => rsp404) (("k").toList) [("A").toList] 0 none).status = 404 ∧
    (tryModels (fun _ => rsp404) (("k").toList) [("A").toList] 0 none).body =
      gemErrorBody (some ⟨404,
        .obj (JObj.cons ("raw").toList (.str (("not found").toList)) .nil),
        ("A").toList⟩) := by
  have h1 := malformed_json_wrapped.1 rsp404 rfl
  have h2 := malformed_json_wrapped.2 (fun _ => rsp404) (("k").toList) [("A").toList]
    (by decide)
    (fun j hj => by
      simp at hj
      subst hj
      decide)
    rfl
    (by decide)
  exact ⟨h1, h2.1, h2.2⟩

/-- Claim C9 counterexample: the claim's second conjunct ("the error body
contains no occurrence of the credential value") fails for a credential whose
text coincides with the handler's fixed error text: with credential `Gemini`,
the all-candidates-failed body contains the substring `Gemini` (from the fixed
text `Gemini error`), even though the body does not depend on the credential. -/
theorem credential_occurrence_cex :
    (handleComment envKeyGemini reqStd (fun _ => rsp404)).status = 404 ∧
    hasSubstr (("Gemini").toList)
      (stringify ((handleComment envKeyGemini reqStd (fun _ => rsp404)).body)) = true := by
  refine ⟨by decide, by decide⟩

/-- Claim C9 (amended): non-interference — for two handler runs that differ
only in the (truthy) credential value, with identical request input and
identical upstream responses, the response status and JSON body are identical;
the credential value never influences any response body (so any occurrence of
the credential in an error body, as in the counterexample, is a coincidence of
the fixed text, not a leak). -/
theorem credential_noninterference_amended :
    ∀ (gm : Option Str) (req : Req) (tr : Nat → Resp) (k1 k2 : Str),
      k1.isEmpty = false → k2.isEmpty = false →
      (handleComment ⟨some k1, gm⟩ req tr).status =
        (handleComment ⟨some k2, gm⟩ req tr).status ∧
      (handleComment ⟨some k1, gm⟩ req tr).body =
        (handleComment ⟨some k2, gm⟩ req tr).body := by
  intro gm req tr k1 k2 h1 h2
  by_cases hct : ctOk req.contentType
  · cases hb : req.body with
    | none =>
        rw [handleComment_parse_fail ⟨some k1, gm⟩ req tr hct hb,
          handleComment_parse_fail ⟨some k2, gm⟩ req tr hct hb]
        exact ⟨rfl, rfl⟩
    | some b =>
        rw [handleComment_run ⟨some k1, gm⟩ req tr b k1 hct hb rfl h1,
          handleComment_run ⟨some k2, gm⟩ req tr b k2 hct hb rfl h2]
        have h := tryModels_key_indep tr (modelCandidatesOf gm) 0 none k1 k2
        exact ⟨h.1, h.2.1⟩
  · have hcf : ctOk req.contentType = false := by simpa using hct
    rw [handleComment_ct_bad ⟨some k1, gm⟩ req tr hcf,
      handleComment_ct_bad ⟨some k2, gm⟩ req tr hcf]
    exact ⟨rfl, rfl⟩

/-- Witness for the amended C9: runs with credentials `Gemini` and `k` produce
identical statuses and bodies on the same failing transport. -/
theorem credential_noninterference_witness :
    (handleComment envKeyGemini reqStd (fun _ => rsp404)).status =
      (handleComment envKeyK reqStd (fun _ => rsp404)).status ∧
    (handleComment envKeyGemini reqStd (fun _ => rsp404)).body =
      (handleComment envKeyK reqStd (fun _ => rsp404)).body := by
  exact credential_noninterference_amended none reqStd (fun _ => rsp404)
    (("Gemini").toList) (("k").toList) (by decide) (by decide)
